import Mathlib

/-!
Shallow embedding of `src/runtime.rs` of wasm3-rs: the `Runtime` wrapper around an
external WebAssembly engine. The engine's execution context is embedded as explicit
state (`EngineCtx`); raw pointers become naturals with `0` standing for the null
pointer; fallible operations return `Except`. Engine entry points and collaborator
types whose code is not among the sources (`Environment`, `Module::find_function`,
`eq_cstr_str`, the `ffi::m3_*` calls) are modelled from the spec, each marked so in
its doc comment.
-/

namespace Wasm3

/-- Modelled from the spec: `Environment` (environment.rs is not among the sources) is
a shared reference-counted handle compared by identity; the identity is embedded as a
natural number. -/
structure Environment where
  ident : Nat
deriving DecidableEq, Repr

/-- The crate's `Error` enum (error.rs is not among the sources; the variants are the
ones runtime.rs constructs and the spec's section 7 lists). `wasm3 code` stands for an
engine status surfaced through `Error::from_ffi_res`; `mallocError` for the
MemoryAllocation error `Error::malloc_error` builds. No variant carries a module: in
particular `moduleLoadEnvMismatch` is constructed bare (`Err(Error::ModuleLoadEnvMismatch)`,
runtime.rs line 60). -/
inductive Error where
  | wasm3 (code : Nat)
  | invalidFunctionSignature
  | functionNotFound
  | moduleNotFound
  | moduleLoadEnvMismatch
  | mallocError
deriving DecidableEq, Repr

/-- One node of the engine's intrusive module linked list. The list itself is embedded
as a Lean list of nodes in link order, head first. Besides its C-string name, a node
carries the outcome of the external typed resolution `Module::find_function::<ARGS, RET>`
on it (module.rs is not among the sources) — modelled from the spec: for the caller's
fixed requested signature, a module resolves a name to success (the handle embedded as
a natural), `InvalidFunctionSignature`, `FunctionNotFound`, or another engine error. -/
structure RawModule where
  name : String
  resolve : String → Except Error Nat

/-- The engine's execution context (`ffi::M3Runtime`) as far as runtime.rs reads it:
the module linked list, the reported linear-memory base pointer and size (addresses are
naturals, `0` standing for null), and the stack slot count. -/
structure EngineCtx where
  modules : List RawModule
  memBase : Nat
  memSize : Nat
  numStackSlots : Nat

/-- A pinned, type-erased host closure (`PinnedAnyClosure`); its content is opaque to
runtime.rs and embedded as a natural tag. -/
structure Closure where
  payload : Nat
deriving DecidableEq, Repr

/-- The `Runtime` struct: the non-null execution-context handle `raw`, the cloned
`Environment`, and the closure store (the `UnsafeCell<Vec<PinnedAnyClosure>>`, embedded
as a list whose index order is push order). -/
structure Runtime where
  raw : EngineCtx
  environment : Environment
  closure_store : List Closure

/-- A parsed, not yet loaded module (module.rs is not among the sources): modelled from
the spec, it carries the environment it was parsed under and its raw engine module. -/
structure ParsedModule where
  environment : Environment
  raw : RawModule

/-- The borrowed `Module` view that `Module::from_raw` builds over one raw node. -/
structure Module where
  raw : RawModule

/-- `Module::from_raw`. -/
def Module.from_raw (raw : RawModule) : Module := ⟨raw⟩

/-- Modelled from the spec: the external `Module::find_function` typed resolution on a
single module (module.rs is not among the sources); the per-module outcome function is
the one the raw node carries. -/
def Module.find_function (m : Module) (name : String) : Except Error Nat :=
  m.raw.resolve name

/-- Modelled from the spec: `ffi::m3_NewRuntime` either fails returning null (`none`)
or returns a fresh execution context with the requested stack size, no loaded modules
and no linear memory. `ok` abstracts whether the engine's allocation succeeds. -/
def m3_NewRuntime (ok : Bool) (stack_size : Nat) : Option EngineCtx :=
  if ok then
    some { modules := [], memBase := 0, memSize := 0, numStackSlots := stack_size }
  else none

/-- Modelled from the spec: `ffi::m3_LoadModule` either rejects the module with the
engine's own status code (`status = some code`) or appends the node to the context's
module list (section 4.5: the list "is only ever appended to"). -/
def m3_LoadModule (status : Option Nat) (ctx : EngineCtx) (m : RawModule) :
    Except Nat EngineCtx :=
  match status with
  | some code => .error code
  | none => .ok { ctx with modules := ctx.modules ++ [m] }

/-- Modelled from the spec: `ffi::m3_GetMemory` reports the engine's current
linear-memory base pointer and size. -/
def m3_GetMemory (ctx : EngineCtx) : Nat × Nat := (ctx.memBase, ctx.memSize)

/-- Modelled from the spec: `eq_cstr_str` (utils.rs is not among the sources) compares
the engine's C-string module name with the requested name for equality. -/
def eq_cstr_str (cstr : String) (s : String) : Bool := cstr == s

/-- `Runtime::new`: `reply` is the engine's answer to `ffi::m3_NewRuntime`; a null
handle (`none`) becomes the MemoryAllocation error, otherwise the runtime holds the
handle, a clone of the given environment, and an empty closure store. -/
def Runtime.new (environment : Environment) (stack_size : Nat)
    (reply : Option EngineCtx) : Except Error Runtime :=
  match reply with
  | none => .error .mallocError
  | some raw => .ok { raw := raw, environment := environment, closure_store := [] }

/-- `Runtime::load_module`: an environment mismatch fails with the bare
`ModuleLoadEnvMismatch` error (the Rust error value carries no module, so the moved-in
`ParsedModule` is dropped); otherwise the engine's status is surfaced, and on success
the node joins the runtime's list (`mem::forget` on the wrapper, `Module::from_raw` on
the node). The runtime's interior mutation is embedded by returning the updated runtime
next to the module view. -/
def Runtime.load_module (rt : Runtime) (module : ParsedModule) (status : Option Nat) :
    Except Error (Runtime × Module) :=
  if rt.environment ≠ module.environment then
    .error .moduleLoadEnvMismatch
  else
    match m3_LoadModule status rt.raw module.raw with
    | .error code => .error (.wasm3 code)
    | .ok ctx => .ok ({ rt with raw := ctx }, Module.from_raw module.raw)

/-- `Runtime::push_closure`: appends the closure to the store. -/
def Runtime.push_closure (rt : Runtime) (closure : Closure) : Runtime :=
  { rt with closure_store := rt.closure_store ++ [closure] }

/-- The traversal `Runtime::modules` performs: start at the context's head pointer,
yield a `Module` view per node, follow the forward link; embedded as the list of views
in link order. -/
def moduleViews : List RawModule → List Module
  | [] => []
  | m :: rest => Module.from_raw m :: moduleViews rest

/-- `Runtime::modules`. -/
def Runtime.modules (rt : Runtime) : List Module :=
  moduleViews rt.raw.modules

/-- The match arm inside `Runtime::find_function`: a per-module resolution is
definitive when it is `Ok` or `Err(InvalidFunctionSignature)`; anything else lets the
scan continue. -/
def definitive (res : Except Error Nat) : Option (Except Error Nat) :=
  match res with
  | .ok f => some (.ok f)
  | .error .invalidFunctionSignature => some (.error .invalidFunctionSignature)
  | _ => none

/-- `Runtime::find_function`: `find_map` over `modules()` with the arm above, then
`unwrap_or(Err(Error::FunctionNotFound))`. -/
def Runtime.find_function (rt : Runtime) (name : String) : Except Error Nat :=
  (rt.modules.findSome? fun module => definitive (module.find_function name)).getD
    (.error .functionNotFound)

/-- The `while let` loop of `Runtime::find_module` over the raw linked list. -/
def findModuleGo (name : String) : List RawModule → Except Error Module
  | [] => .error .moduleNotFound
  | raw_mod :: rest =>
    if eq_cstr_str raw_mod.name name then .ok (Module.from_raw raw_mod)
    else findModuleGo name rest

/-- `Runtime::find_module`: walk the engine's list from the head. -/
def Runtime.find_module (rt : Runtime) (name : String) : Except Error Module :=
  findModuleGo name rt.raw.modules

/-- A borrowed slice: base address (`0` = null) and length. -/
structure MemView where
  base : Nat
  len : Nat
deriving DecidableEq, Repr

/-- `core::ptr::NonNull::<u8>::dangling()`: the alignment of `u8`, address 1 —
non-null. -/
def danglingAddr : Nat := 1

/-- `Runtime::memory`: read (pointer, size) from the engine and build the slice; a zero
size or a null pointer replaces the base by the dangling pointer, and the length is the
reported size either way. -/
def Runtime.memory (rt : Runtime) : MemView :=
  let ptr := (m3_GetMemory rt.raw).1
  let size := (m3_GetMemory rt.raw).2
  { base := if size = 0 ∨ ptr = 0 then danglingAddr else ptr, len := size }

/-- One state-affecting operation on a live runtime: registering a closure or loading a
parsed module. Every other runtime.rs method only reads the state. -/
inductive RtOp where
  | push (closure : Closure)
  | load (module : ParsedModule) (status : Option Nat)

/-- The runtime after one operation (a failed load leaves it unchanged). -/
def Runtime.step (rt : Runtime) : RtOp → Runtime
  | .push c => rt.push_closure c
  | .load m status =>
    match rt.load_module m status with
    | .ok (rt2, _) => rt2
    | .error _ => rt

/-- The runtime after a sequence of operations. -/
def Runtime.steps (rt : Runtime) (ops : List RtOp) : Runtime :=
  ops.foldl Runtime.step rt

/-- Registering a batch of closures in order. -/
def Runtime.pushAll (rt : Runtime) (cs : List Closure) : Runtime :=
  cs.foldl Runtime.push_closure rt

/-- The lookup the spec's words describe for `find_module`: scan the sequence
`modules()` yields for the first module whose name equals the requested name;
`ModuleNotFound` when the scan finds none. -/
def find_module_via_modules (rt : Runtime) (name : String) : Except Error Module :=
  match rt.modules.find? (fun m => eq_cstr_str m.raw.name name) with
  | some m => .ok m
  | none => .error .moduleNotFound

/-- C7: `Runtime::new` fails with the MemoryAllocation error exactly when the engine
hands back a null execution-context handle; on a non-null handle it succeeds with a
runtime holding that handle, the cloned environment, and an empty closure store — and
nothing else. -/
theorem new_malloc_error_iff_null_reply (env : Environment) (stack_size : Nat) :
    (∀ reply, Runtime.new env stack_size reply = .error .mallocError ↔ reply = none) ∧
    (∀ ctx, Runtime.new env stack_size (some ctx) =
      .ok { raw := ctx, environment := env, closure_store := [] }) := by
  constructor
  · intro reply
    cases reply <;> simp [Runtime.new]
  · intro ctx
    rfl

/-- C10: a freshly constructed runtime (engine allocation succeeded, so the context is
fresh with no loaded modules) has an empty `modules()` sequence, every `find_module`
fails with `ModuleNotFound`, and every `find_function` fails with `FunctionNotFound`. -/
theorem fresh_runtime_has_no_modules (env : Environment) (stack_size : Nat)
    (rt : Runtime)
    (h : Runtime.new env stack_size (m3_NewRuntime true stack_size) = .ok rt) :
    rt.modules = [] ∧
    (∀ name, rt.find_module name = .error .moduleNotFound) ∧
    (∀ name, rt.find_function name = .error .functionNotFound) := by
  have hrt : rt = ⟨⟨[], 0, 0, stack_size⟩, env, []⟩ := by
    simp only [Runtime.new, m3_NewRuntime, if_pos] at h
    exact (Except.ok.injEq _ _ ▸ h).symm
  subst hrt
  exact ⟨rfl, fun name => rfl, fun name => rfl⟩

/-- Witness for C10 at a concrete fresh runtime. -/
theorem fresh_runtime_has_no_modules_witness :
    (⟨⟨[], 0, 0, 64⟩, ⟨0⟩, []⟩ : Runtime).modules = [] ∧
    (∀ name, (⟨⟨[], 0, 0, 64⟩, ⟨0⟩, []⟩ : Runtime).find_module name
         = .error .moduleNotFound) ∧
    (∀ name, (⟨⟨[], 0, 0, 64⟩, ⟨0⟩, []⟩ : Runtime).find_function name
         = .error .functionNotFound) :=
  fresh_runtime_has_no_modules ⟨0⟩ 64 _ rfl

/-- C1: at an environment mismatch (runtime environment identity 0, module parsed under
identity 1) `load_module` evaluates to the bare `ModuleLoadEnvMismatch` error. The error
value carries no module — `Err(Error::ModuleLoadEnvMismatch)` is a payload-free variant —
so the moved-in `ParsedModule` is dropped at the end of the call rather than returned
untouched as the function's own doc comment and the spec promise. -/
theorem load_module_env_mismatch_drops_module :
    Runtime.load_module ⟨⟨[], 0, 0, 64⟩, ⟨0⟩, []⟩
      ⟨⟨1⟩, ⟨"m", fun _ => .error .functionNotFound⟩⟩ none
      = .error .moduleLoadEnvMismatch := rfl

/-- C2 fails as stated: when the engine reports a null base pointer together with a
nonzero size (base 0, size 5), `memory()` returns a view of length 5 — not a zero-length
view. -/
theorem memory_null_base_nonzero_size_not_empty :
    (⟨⟨[], 0, 5, 0⟩, ⟨0⟩, []⟩ : Runtime).raw.memBase = 0 ∧
    ¬ (⟨⟨[], 0, 5, 0⟩, ⟨0⟩, []⟩ : Runtime).memory.len = 0 :=
  ⟨rfl, by decide⟩

/-- C2 amended: `memory()` never uses a null slice base — the base is the engine's
pointer or the dangling pointer, both nonzero — its length is always the engine's
reported size, and whenever the engine reports size zero the result is the valid
zero-length view at the dangling pointer. (A null base with a nonzero reported size
yields the dangling base with that size, not a zero-length view.) -/
theorem memory_never_null_base (rt : Runtime) :
    rt.memory.base ≠ 0 ∧
    rt.memory.len = rt.raw.memSize ∧
    (rt.raw.memSize = 0 → rt.memory = { base := danglingAddr, len := 0 }) := by
  refine ⟨?_, rfl, ?_⟩
  · show (if (m3_GetMemory rt.raw).2 = 0 ∨ (m3_GetMemory rt.raw).1 = 0
        then danglingAddr else (m3_GetMemory rt.raw).1) ≠ 0
    split
    · decide
    · next hcond =>
      exact fun h0 => hcond (Or.inr h0)
  · intro h0
    simp [Runtime.memory, m3_GetMemory, h0]

/-- `findSome?` answers `some b` as soon as position `i` does, provided every earlier
position answers `none`. -/
lemma findSome?_of_first {α β : Type} (f : α → Option β) :
    ∀ (l : List α) (i : Nat) (h : i < l.length) (b : β),
      f (l.get ⟨i, h⟩) = some b →
      (∀ j, ∀ hj : j < i, f (l.get ⟨j, Nat.lt_trans hj h⟩) = none) →
      l.findSome? f = some b := by
  intro l
  induction l with
  | nil => intro i h; exact absurd h (Nat.not_lt_zero i)
  | cons a rest ih =>
    intro i h b hb hbefore
    cases i with
    | zero =>
      have hb0 : f a = some b := hb
      rw [List.findSome?_cons, hb0]
    | succ i =>
      have ha : f a = none := hbefore 0 (Nat.succ_pos i)
      rw [List.findSome?_cons, ha]
      exact ih i (Nat.lt_of_succ_lt_succ h) b hb
        (fun j hj => hbefore (j + 1) (Nat.succ_lt_succ hj))

/-- `findSome?` answers `none` when every element does. -/
lemma findSome?_eq_none_of_all {α β : Type} (f : α → Option β) :
    ∀ l : List α, (∀ a ∈ l, f a = none) → l.findSome? f = none := by
  intro l
  induction l with
  | nil => intro _; rfl
  | cons a rest ih =>
    intro hall
    rw [List.findSome?_cons, hall a (List.mem_cons_self a rest)]
    exact ih fun x hx => hall x (List.mem_cons_of_mem a hx)

/-- C4: when the module at position `i` of the scan resolves the name to
`InvalidFunctionSignature` and every earlier module's resolution is not definitive
(neither success nor signature mismatch), `find_function` returns
`InvalidFunctionSignature` — whatever the modules after position `i` resolve, in
particular when a later module exports the name with the correct signature. -/
theorem find_function_sig_mismatch_short_circuit (rt : Runtime) (name : String)
    (i : Nat) (h : i < rt.modules.length)
    (hsig : (rt.modules.get ⟨i, h⟩).find_function name
      = .error .invalidFunctionSignature)
    (hbefore : ∀ j, ∀ hj : j < i,
      definitive ((rt.modules.get ⟨j, Nat.lt_trans hj h⟩).find_function name) = none) :
    rt.find_function name = .error .invalidFunctionSignature := by
  have hfind : rt.modules.findSome? (fun module => definitive (module.find_function name))
      = some (.error .invalidFunctionSignature) := by
    refine findSome?_of_first _ rt.modules i h _ ?_ hbefore
    rw [hsig]
    rfl
  rw [Runtime.find_function, hfind]
  rfl

/-- Witness for C4: the first module answers `InvalidFunctionSignature`, the second
exports the name with the correct signature (`Ok 7`); the scan still surfaces the
mismatch. -/
theorem find_function_sig_mismatch_short_circuit_witness :
    Runtime.find_function
      ⟨⟨[⟨"a", fun _ => .error .invalidFunctionSignature⟩, ⟨"b", fun _ => .ok 7⟩],
        0, 0, 0⟩, ⟨0⟩, []⟩ "f"
      = .error .invalidFunctionSignature :=
  find_function_sig_mismatch_short_circuit _ "f" 0 (Nat.succ_pos 1) rfl
    (fun j hj => absurd hj (Nat.not_lt_zero j))

/-- C5: when every loaded module resolves the name to `FunctionNotFound` — in
particular when no module is loaded at all — `find_function` fails with
`FunctionNotFound`. -/
theorem find_function_not_found_when_absent (rt : Runtime) (name : String)
    (h : ∀ m ∈ rt.modules, m.find_function name = .error .functionNotFound) :
    rt.find_function name = .error .functionNotFound := by
  have hfind : rt.modules.findSome? (fun module => definitive (module.find_function name))
      = none := by
    refine findSome?_eq_none_of_all _ rt.modules fun m hm => ?_
    rw [h m hm]
    rfl
  rw [Runtime.find_function, hfind]
  rfl

/-- Witness for C5 at a runtime with one module that does not resolve the name and at
the empty hypothesis side covered by that module's answer. -/
theorem find_function_not_found_when_absent_witness :
    Runtime.find_function
      ⟨⟨[⟨"a", fun _ => .error .functionNotFound⟩], 0, 0, 0⟩, ⟨0⟩, []⟩ "f"
      = .error .functionNotFound :=
  find_function_not_found_when_absent _ "f"
    (fun m hm => by
      simp only [Runtime.modules, moduleViews] at hm
      rcases List.mem_singleton.mp hm with rfl
      rfl)

/-- The direct list walk of `find_module` computes `List.find?` over the raw nodes. -/
lemma findModuleGo_eq_find? (name : String) :
    ∀ ms : List RawModule,
      findModuleGo name ms =
        match ms.find? (fun raw_mod => eq_cstr_str raw_mod.name name) with
        | some raw_mod => .ok (Module.from_raw raw_mod)
        | none => .error .moduleNotFound := by
  intro ms
  induction ms with
  | nil => rfl
  | cons m rest ih =>
    by_cases hm : eq_cstr_str m.name name = true
    · rw [findModuleGo, if_pos hm,
        List.find?_cons_of_pos (p := fun raw_mod => eq_cstr_str raw_mod.name name) (a := m)
          rest hm]
    · rw [findModuleGo, if_neg hm,
        List.find?_cons_of_neg (p := fun raw_mod => eq_cstr_str raw_mod.name name) (a := m)
          rest hm,
        ih]

/-- `find?` answers the element at position `i` when it satisfies the predicate and no
earlier element does. -/
lemma find?_of_first {α : Type} (p : α → Bool) :
    ∀ (l : List α) (i : Nat) (h : i < l.length),
      p (l.get ⟨i, h⟩) = true →
      (∀ j, ∀ hj : j < i, p (l.get ⟨j, Nat.lt_trans hj h⟩) = false) →
      l.find? p = some (l.get ⟨i, h⟩) := by
  intro l
  induction l with
  | nil => intro i h; exact absurd h (Nat.not_lt_zero i)
  | cons a rest ih =>
    intro i h hp hbefore
    cases i with
    | zero =>
      have hp0 : p a = true := hp
      rw [List.find?_cons_of_pos (p := p) (a := a) rest hp0]
      rfl
    | succ i =>
      have ha : p a = false := hbefore 0 (Nat.succ_pos i)
      rw [List.find?_cons_of_neg (p := p) (a := a) rest (by simp [ha])]
      exact ih i (Nat.lt_of_succ_lt_succ h) hp
        (fun j hj => hbefore (j + 1) (Nat.succ_lt_succ hj))

/-- C6: `find_module` walks the engine's list from the head and returns the first node
whose name equals the requested name — if position `i` matches and no earlier position
does, the result is the view over node `i` — and it fails with `ModuleNotFound` exactly
when no node's name matches. -/
theorem find_module_first_match (rt : Runtime) (name : String) :
    (∀ i, ∀ h : i < rt.raw.modules.length,
      eq_cstr_str (rt.raw.modules.get ⟨i, h⟩).name name = true →
      (∀ j, ∀ hj : j < i,
        eq_cstr_str (rt.raw.modules.get ⟨j, Nat.lt_trans hj h⟩).name name = false) →
      rt.find_module name = .ok (Module.from_raw (rt.raw.modules.get ⟨i, h⟩))) ∧
    (rt.find_module name = .error .moduleNotFound ↔
      ∀ raw_mod ∈ rt.raw.modules, eq_cstr_str raw_mod.name name = false) := by
  constructor
  · intro i h hp hbefore
    rw [Runtime.find_module, findModuleGo_eq_find? name rt.raw.modules,
      find?_of_first _ rt.raw.modules i h hp hbefore]
  · rw [Runtime.find_module, findModuleGo_eq_find? name rt.raw.modules]
    cases hfind : rt.raw.modules.find? (fun raw_mod => eq_cstr_str raw_mod.name name) with
    | none =>
      constructor
      · intro _ raw_mod hmem
        have hnot := List.find?_eq_none.mp hfind raw_mod hmem
        simpa using hnot
      · intro _
        rfl
    | some found =>
      constructor
      · intro hres
        simp at hres
      · intro hall
        have hmem := List.mem_of_find?_eq_some hfind
        have hsat0 := List.find?_some hfind
        have hsat : eq_cstr_str found.name name = true := hsat0
        rw [hall found hmem] at hsat
        simp at hsat

/-- C9: the direct linked-list walk of `find_module` returns exactly what a scan of the
`modules()` sequence for the first name match returns — the same module view on a hit,
`ModuleNotFound` exactly when the scan finds none. -/
theorem find_module_refines_modules_scan (rt : Runtime) (name : String) :
    rt.find_module name = find_module_via_modules rt name := by
  rw [Runtime.find_module, find_module_via_modules, Runtime.modules,
    findModuleGo_eq_find? name rt.raw.modules]
  induction rt.raw.modules with
  | nil => rfl
  | cons m rest ih =>
    by_cases hm : eq_cstr_str m.name name = true
    · rw [List.find?_cons_of_pos (p := fun raw_mod => eq_cstr_str raw_mod.name name) (a := m)
          rest hm,
        moduleViews,
        List.find?_cons_of_pos (p := fun mv => eq_cstr_str mv.raw.name name)
          (a := Module.from_raw m) (moduleViews rest) hm]
    · rw [List.find?_cons_of_neg (p := fun raw_mod => eq_cstr_str raw_mod.name name) (a := m)
          rest hm,
        moduleViews,
        List.find?_cons_of_neg (p := fun mv => eq_cstr_str mv.raw.name name)
          (a := Module.from_raw m) (moduleViews rest) hm,
        ih]

/-- `take` of the left part of an append returns the left part unchanged. -/
lemma take_length_append {α : Type} : ∀ l ext : List α, (l ++ ext).take l.length = l
  | [], _ => rfl
  | a :: l, ext => congrArg (List.cons a) (take_length_append l ext)

/-- Pushing a batch of closures appends them, in order, after the existing store. -/
lemma pushAll_closure_store : ∀ (cs : List Closure) (rt : Runtime),
    (rt.pushAll cs).closure_store = rt.closure_store ++ cs := by
  intro cs
  induction cs with
  | nil => intro rt; exact (List.append_nil _).symm
  | cons c cs ih =>
    intro rt
    show (Runtime.pushAll (rt.push_closure c) cs).closure_store = _
    rw [ih, Runtime.push_closure, List.append_assoc]
    rfl

/-- A successful `load_module` never touches the closure store. -/
lemma load_module_ok_closure_store (rt rt2 : Runtime) (m : ParsedModule)
    (status : Option Nat) (v : Module) (h : rt.load_module m status = .ok (rt2, v)) :
    rt2.closure_store = rt.closure_store := by
  rw [Runtime.load_module] at h
  split at h
  · exact absurd h (by simp)
  · cases hload : m3_LoadModule status rt.raw m.raw with
    | error code =>
      rw [hload] at h
      exact absurd h (by simp)
    | ok ctx =>
      rw [hload] at h
      have := (Except.ok.injEq _ _ ▸ h)
      have hpair : ({ rt with raw := ctx } : Runtime) = rt2 := congrArg Prod.fst this
      rw [← hpair]

/-- One runtime operation only ever appends to the closure store. -/
lemma step_closure_store_extends (rt : Runtime) (op : RtOp) :
    ∃ ext, (rt.step op).closure_store = rt.closure_store ++ ext := by
  cases op with
  | push c => exact ⟨[c], rfl⟩
  | load m status =>
    show ∃ ext, (match rt.load_module m status with
      | .ok (rt2, _) => rt2
      | .error _ => rt).closure_store = rt.closure_store ++ ext
    cases h : rt.load_module m status with
    | error e => exact ⟨[], (List.append_nil _).symm⟩
    | ok pair =>
      refine ⟨[], ?_⟩
      rw [List.append_nil]
      exact load_module_ok_closure_store rt pair.1 m status pair.2 (by rw [h])

/-- A sequence of runtime operations only ever appends to the closure store. -/
lemma steps_closure_store_extends : ∀ (ops : List RtOp) (rt : Runtime),
    ∃ ext, (rt.steps ops).closure_store = rt.closure_store ++ ext := by
  intro ops
  induction ops with
  | nil => intro rt; exact ⟨[], (List.append_nil _).symm⟩
  | cons op ops ih =>
    intro rt
    obtain ⟨e1, h1⟩ := step_closure_store_extends rt op
    obtain ⟨e2, h2⟩ := ih (rt.step op)
    refine ⟨e1 ++ e2, ?_⟩
    show (Runtime.steps (rt.step op) ops).closure_store = _
    rw [h2, h1, List.append_assoc]

/-- C8: the closure store is append-only. After registering the batch `cs` and then any
further sequence of runtime operations, the store still starts with the original store
followed by `cs`, entry for entry: no closure is removed, moved to another position, or
replaced before the runtime is torn down. -/
theorem closure_store_append_only (rt : Runtime) (cs : List Closure) (ops : List RtOp) :
    ((rt.pushAll cs).steps ops).closure_store.take (rt.closure_store ++ cs).length
      = rt.closure_store ++ cs := by
  obtain ⟨ext, hext⟩ := steps_closure_store_extends ops (rt.pushAll cs)
  rw [hext, pushAll_closure_store, take_length_append]

/-- Loading a module whose environment matches succeeds and appends its node. -/
lemma load_module_ok_of_env_eq (rt : Runtime) (m : ParsedModule)
    (h : rt.environment = m.environment) :
    rt.load_module m none =
      .ok (⟨⟨rt.raw.modules ++ [m.raw], rt.raw.memBase, rt.raw.memSize,
        rt.raw.numStackSlots⟩, rt.environment, rt.closure_store⟩,
        Module.from_raw m.raw) := by
  rw [Runtime.load_module, if_neg (by simp [h])]
  rfl

/-- C3: loading parsed modules `m1`, `m2`, `m3` in that order — all parsed under the
runtime's environment, the engine accepting each load — into a runtime whose context
holds no modules yet makes `modules()` yield exactly the three returned views in load
order. -/
theorem modules_yield_load_order (env : Environment) (ctx : EngineCtx)
    (hctx : ctx.modules = []) (cs : List Closure) (m1 m2 m3 : ParsedModule)
    (h1 : m1.environment = env) (h2 : m2.environment = env) (h3 : m3.environment = env) :
    ∃ rt1 rt2 rt3 v1 v2 v3,
      Runtime.load_module ⟨ctx, env, cs⟩ m1 none = .ok (rt1, v1) ∧
      rt1.load_module m2 none = .ok (rt2, v2) ∧
      rt2.load_module m3 none = .ok (rt3, v3) ∧
      rt3.modules = [v1, v2, v3] := by
  refine ⟨_, _, _, _, _, _,
    load_module_ok_of_env_eq _ _ h1.symm,
    load_module_ok_of_env_eq _ _ h2.symm,
    load_module_ok_of_env_eq _ _ h3.symm, ?_⟩
  show moduleViews (((ctx.modules ++ [m1.raw]) ++ [m2.raw]) ++ [m3.raw]) = _
  rw [hctx]
  rfl

/-- Witness for C3 at three concrete parsed modules over environment 0. -/
theorem modules_yield_load_order_witness :
    ∃ rt1 rt2 rt3 v1 v2 v3,
      Runtime.load_module ⟨⟨[], 0, 0, 0⟩, ⟨0⟩, []⟩
          ⟨⟨0⟩, ⟨"m1", fun _ => .error .functionNotFound⟩⟩ none = .ok (rt1, v1) ∧
      rt1.load_module ⟨⟨0⟩, ⟨"m2", fun _ => .error .functionNotFound⟩⟩ none
        = .ok (rt2, v2) ∧
      rt2.load_module ⟨⟨0⟩, ⟨"m3", fun _ => .error .functionNotFound⟩⟩ none
        = .ok (rt3, v3) ∧
      rt3.modules = [v1, v2, v3] :=
  modules_yield_load_order ⟨0⟩ ⟨[], 0, 0, 0⟩ rfl []
    ⟨⟨0⟩, ⟨"m1", fun _ => .error .functionNotFound⟩⟩
    ⟨⟨0⟩, ⟨"m2", fun _ => .error .functionNotFound⟩⟩
    ⟨⟨0⟩, ⟨"m3", fun _ => .error .functionNotFound⟩⟩
    rfl rfl rfl

end Wasm3
